import Mathlib

set_option maxHeartbeats 1000000

/-
Verification of the stencil template compiler (stencil.py).

The compiler state and algorithms are embedded shallowly: Python strings
become lists of characters, the mutable Compiler object becomes an explicit
state record threaded through the scan loop, and raised SyntaxError
exceptions become an error component carried next to the state, so that
output already written to the out stream when an exception unwinds is
retained, as it is for a streamed sink in the source.

The one external collaborator, the host Python parser invoked through the
builtin compile() inside Compiler.process_substitution, is not code of this
repository; it is modelled as the checkSyntax field of a profile, a function
from a candidate fragment to either acceptance or a message with an offset.
Concrete scenarios below instantiate it with functions that agree with
CPython on every fragment actually submitted in that scenario.
-/

/-- Characters of a string literal; all program text is modelled as a list
of characters, mirroring Python strings. -/
def chars (s : String) : List Char := s.data

/-- The single-quote character, used by the Python repr of plain strings. -/
def squo : Char := Char.ofNat 39

/-- The backslash character. -/
def bsl : Char := Char.ofNat 92

/-- The double-quote character. -/
def dquo : Char := Char.ofNat 34

/-- Python whitespace, for str.strip and the regex whitespace class:
space, tab, newline, carriage return, vertical tab, form feed. -/
def isSpace (c : Char) : Bool :=
  c = ' ' || c = '\t' || c = '\n' || c = '\r' || c = Char.ofNat 11 || c = Char.ofNat 12

/-- Python str.strip: remove whitespace from both ends. -/
def strip (s : List Char) : List Char :=
  ((s.dropWhile isSpace).reverse.dropWhile isSpace).reverse

/-- Index of the first occurrence of sep inside line; none when sep does
not occur. An empty sep yields none: Python str.partition rejects an empty
separator, and profile delimiters are never empty. -/
def firstOcc : List Char → List Char → Option Nat
  | _, [] => none
  | [], _ :: _ => none
  | c :: cs, d :: ds =>
      if (d :: ds).isPrefixOf (c :: cs) then some 0
      else (firstOcc cs (d :: ds)).map (fun i => i + 1)

/-- Python str.partition at the first occurrence of sep: the text before it
and the text after it; none when sep does not occur. -/
def splitAtSub (line sep : List Char) : Option (List Char × List Char) :=
  (firstOcc line sep).map (fun i => (line.take i, line.drop (i + sep.length)))

/-- A match of firstOcc needs a non-empty line and a non-empty separator;
this bounds the scan loops below. -/
def firstOcc_bounds : ∀ (l s : List Char) (i : Nat), firstOcc l s = some i → l ≠ [] ∧ s ≠ [] := by
  intro l s i h
  constructor
  · intro hl
    subst hl
    rcases s with _ | ⟨d, ds⟩ <;> simp [firstOcc] at h
  · intro hs
    subst hs
    simp [firstOcc] at h

/-- Split a text into physical lines, each keeping its trailing newline,
as iterating a Python StringIO does; the empty text yields no lines. -/
def splitLinesKeepEnds : List Char → List (List Char)
  | [] => []
  | c :: cs =>
      if c = '\n' then ['\n'] :: splitLinesKeepEnds cs
      else
        match splitLinesKeepEnds cs with
        | [] => [[c]]
        | l :: ls => (c :: l) :: ls

/-- One character of a Python repr under quote character q. -/
def escChar (q c : Char) : List Char :=
  if c = bsl then [bsl, bsl]
  else if c = '\n' then [bsl, 'n']
  else if c = '\r' then [bsl, 'r']
  else if c = '\t' then [bsl, 't']
  else if c = q then [bsl, q]
  else [c]

/-- Python repr of a string of printable characters: double quotes when the
text holds a single quote and no double quote, else single quotes. Models
the percent-r conversion of the source on the printable texts arising
here (it does not model hexadecimal escapes of unprintable characters). -/
def pyRepr (s : List Char) : List Char :=
  let q := if s.contains squo && !(s.contains dquo) then dquo else squo
  q :: (s.map (escChar q)).flatten ++ [q]

/-- One emitted statement: the statement text together with the nesting
level at emission time. Compiler.print renders it by prefixing the
indentation unit repeated level times and appending a newline. -/
structure Emitted where
  level : Int
  text : List Char
deriving DecidableEq, Repr

/-- The scan cursor of the Compiler object, plus the out stream: column and
line number, current nesting level, pending multi-line buffer, raw current
physical line, and the statements emitted so far. -/
structure CState where
  column : Nat
  linenumber : Nat
  level : Int
  multiline : List Char
  currentline : List Char
  output : List Emitted
deriving DecidableEq, Repr

/-- The tuple Compiler.syntax_state builds for a SyntaxError: filename,
line number, column (with the validator offset added) and the raw current
physical line. -/
structure ErrPos where
  filename : List Char
  linenumber : Nat
  column : Nat
  currentline : List Char
deriving DecidableEq, Repr

/-- A compilation failure: a SyntaxError with its message and position, or
the unhandled IndexError that an empty block-check text produces. -/
inductive CErr where
  | synError (msg : List Char) (pos : ErrPos)
  | indexError
deriving DecidableEq, Repr

/-- A registered substitution pattern: matcher models re.match of the
pattern against the directive text, returning the end of the match, and
func is the bound handler, taking the matched group and the remainder. -/
structure SubHandler where
  matcher : List Char → Option Nat
  func : List Char → List Char → List Char

/-- The template-family profile consumed by one compilation: delimiters,
writer expression, indentation unit, ordered handler table, the dedent
predicate, the delegated fragment-syntax check, and the filename label. -/
structure Profile where
  opener : List Char
  closer : List Char
  writer : List Char
  indent : List Char
  subs : List SubHandler
  dedent : List Char → Bool
  checkSyntax : List Char → Option (List Char × Nat)
  filename : List Char

/-- Compiler.syntax_state with an extra offset. -/
def errState (p : Profile) (st : CState) (offset : Nat) : ErrPos :=
  ⟨p.filename, st.linenumber, st.column + offset, st.currentline⟩

/-- Compiler.print: append one statement at the current level. -/
def printStmt (st : CState) (text : List Char) : CState :=
  { st with output := st.output ++ [⟨st.level, text⟩] }

/-- The literal emission, writer followed by the repr of the text in
parentheses. -/
def writerCall (p : Profile) (text : List Char) : List Char :=
  p.writer ++ ['('] ++ pyRepr text ++ [')']

/-- re.match of the default pattern, an equal sign then greedy whitespace,
returning the end of the match. -/
def matchEqualSign : List Char → Option Nat
  | [] => none
  | c :: rest => if c = '=' then some (1 + (rest.takeWhile isSpace).length) else none

/-- StencilBase.on_equal_sign: wrap the remainder in writer(str(...)). -/
def on_equal_sign (writer rem : List Char) : List Char :=
  writer ++ chars "(str(" ++ rem ++ chars "))"

/-- The default registered handler of StencilBase, bound to the default
writer expression sys.stdout.write. -/
def equalSub : SubHandler :=
  ⟨matchEqualSign, fun _ rem => on_equal_sign (chars "sys.stdout.write") rem⟩

/-- re.match of the Web2pyStencil pattern, the word extend then one or more
whitespace characters, returning the end of the match. -/
def matchExtend (t : List Char) : Option Nat :=
  if (chars "extend").isPrefixOf t then
    let w := ((t.drop 6).takeWhile isSpace).length
    if w = 0 then none else some (6 + w)
  else none

/-- Web2pyStencil.on_extend: rewrite to a comment line. -/
def on_extend (rem : List Char) : List Char := chars "#Extending " ++ rem

/-- The extend handler registered by Web2pyStencil. -/
def extendSub : SubHandler := ⟨matchExtend, fun _ rem => on_extend rem⟩

/-- Whether the directive text starts with one of the block-continuation
keywords; the source tests membership over a set, so only the disjunction
of the four prefix tests is observable. -/
def startsCont (t : List Char) : Bool :=
  (chars "elif").isPrefixOf t || (chars "else").isPrefixOf t ||
  (chars "except").isPrefixOf t || (chars "finally").isPrefixOf t

/-- The for loop over the ordered handler table: first matcher that
matches wins, returning the handler and the end of its match. -/
def findSub : List SubHandler → List Char → Option (SubHandler × Nat)
  | [], _ => none
  | s :: rest, t =>
      match s.matcher t with
      | some e => some (s, e)
      | none => findSub rest t

/-- The check-source the validator receives: a directive ending in a colon
gets a synthetic block body, and a continuation keyword gets a synthetic
opener in front, exactly as built around the source's block_check. -/
def buildBlockCheck (text : List Char) : List Char :=
  if text.getLastD ' ' = ':' then
    (if text.take 2 = chars "el" then chars "if 1:pass" ++ ['\n'] ++ text
     else if (chars "except").isPrefixOf text || (chars "finally").isPrefixOf text then
       chars "try:pass" ++ ['\n'] ++ text
     else text) ++ ['\n', '\t'] ++ chars "pass"
  else text

/-- The tail of process_substitution: reading block_check with a trailing
index fails with IndexError on an empty text; otherwise the check-source is
delegated to the profile's syntax check, a rejection becoming a
SyntaxError whose offset is added to the column. -/
def blockCheck (p : Profile) (st : CState) (text : List Char) : CState × Option CErr :=
  match text.getLast? with
  | none => (st, some CErr.indexError)
  | some _ =>
      match p.checkSyntax (buildBlockCheck text) with
      | none => (st, none)
      | some (msg, off) => (st, some (CErr.synError msg (errState p st off)))

/-- The no-pattern-matched tail after the dedent bookkeeping: print the
text unless it is a pure dedent, then increment the level after a trailing
colon, then validate. -/
def dedentTail (p : Profile) (st : CState) (text : List Char) : CState × Option CErr :=
  let st1 := if p.dedent text then st else printStmt st text
  let st2 := if text.getLastD ' ' = ':' then { st1 with level := st1.level + 1 } else st1
  blockCheck p st2 text

/-- Compiler.process_substitution: strip the directive interior; an empty
interior does nothing; otherwise dispatch to the first matching handler
(advancing the column by the match and printing the rewritten statement),
or fall through to the dedent bookkeeping and pass-through emission; then
submit block_check to the validator. -/
def process_substitution (p : Profile) (st : CState) (text0 : List Char) :
    CState × Option CErr :=
  let text := strip text0
  if text = [] then (st, none)
  else
    match findSub p.subs text with
    | some (sub, e) =>
        let st1 := { st with column := st.column + e }
        let rem := text.drop e
        let st2 := printStmt st1 (sub.func (text.take e) rem)
        blockCheck p st2 rem
    | none =>
        if p.dedent text || startsCont text then
          let st1 := { st with level := st.level - 1 }
          if st1.level < 0 then
            (st1, some (CErr.synError (chars "Got dedent outside of block") (errState p st1 0)))
          else dedentTail p st1 text
        else dedentTail p st text

/-- The inner while loop of Compiler.compile over one accumulated physical
line, with a structural fuel bounding the number of iterations: partition
on the active delimiter; when absent, the rest becomes the multi-line
buffer; when found, the span is a substitution or a literal emission, the
column advances past span and delimiter, and the mode toggles. An error
stops the scan with the state at the raise. Every iteration that continues
consumes at least the non-empty delimiter, so a fuel above the line length
is never exhausted; the zero-fuel value mirrors the loop exit. -/
def innerLoopF (p : Profile) : Nat → CState → List Char → Bool →
    CState × Bool × Option CErr
  | 0, st, _, insub => (st, insub, none)
  | fuel + 1, st, line, insub =>
      if line = [] then (st, insub, none)
      else
        match splitAtSub line (if insub then p.closer else p.opener) with
        | none => ({ st with multiline := st.multiline ++ line }, insub, none)
        | some (text, rest) =>
            let r := if insub then process_substitution p st text
                     else if text = [] then (st, none)
                     else (printStmt st (writerCall p text), none)
            match r.2 with
            | some e => (r.1, insub, some e)
            | none =>
                innerLoopF p fuel
                  { r.1 with column := r.1.column + text.length +
                      (if insub then p.closer else p.opener).length }
                  rest (!insub)

/-- The inner while loop with sufficient fuel. -/
def innerLoop (p : Profile) (st : CState) (line : List Char) (insub : Bool) :
    CState × Bool × Option CErr :=
  innerLoopF p (line.length + 1) st line insub

/-- The per-line setup of Compiler.compile: clear the buffer, prepend the
old buffer to the raw line, remember the raw line, reset the column and set
the line number. -/
def lineSetup (st : CState) (n : Nat) (raw : List Char) : CState × List Char :=
  ({ st with multiline := [], currentline := raw, column := 0, linenumber := n },
   st.multiline ++ raw)

/-- The for loop of Compiler.compile over the physical lines, numbered
from one; an error stops the compilation. -/
def compileLoop (p : Profile) : CState → Bool → Nat → List (List Char) →
    CState × Bool × Option CErr
  | st, insub, _, [] => (st, insub, none)
  | st, insub, n, l :: ls =>
      let s1 := lineSetup st n l
      let r := innerLoop p s1.1 s1.2 insub
      match r.2.2 with
      | some e => (r.1, r.2.1, some e)
      | none => compileLoop p r.1 r.2.1 (n + 1) ls

/-- The epilogue of Compiler.compile: a leftover buffer inside a
substitution is the unclosed-substitution error at the final position; a
leftover buffer in literal mode is the final literal emission; an empty
buffer does nothing. -/
def compileFinish (p : Profile) (st : CState) (insub : Bool) : CState × Option CErr :=
  if st.multiline = [] then (st, none)
  else if insub then
    (st, some (CErr.synError (chars "Unclosed substitution") (errState p st 0)))
  else (printStmt st (writerCall p st.multiline), none)

/-- The initial Compiler state. -/
def initState : CState := ⟨0, 0, 0, [], [], []⟩

/-- Compiler.compile on a whole input text, as StencilBase.parse reaches it
through a StringIO: iterate the lines, then run the epilogue. The result
pairs the final state (whose output holds every statement emitted before
any raise, as a streamed sink would have received it) with the error. -/
def compileRun (p : Profile) (input : List Char) : CState × Option CErr :=
  let r := compileLoop p initState false 1 (splitLinesKeepEnds input)
  match r.2.2 with
  | some e => (r.1, some e)
  | none => compileFinish p r.1 r.2.1

/-- A StencilBase profile with the web2py delimiters, as built by
StencilBase.__init__ for the class of the leading doctests: the single
default handler, the default dedent predicate token pass, the default
writer and filename label, with the delegated syntax check abstract. -/
def web2pyProfile (check : List Char → Option (List Char × Nat)) : Profile :=
  ⟨chars "\x7b\x7b", chars "\x7d\x7d", chars "sys.stdout.write", ['\t'],
   [equalSub], fun t => t == chars "pass", check, chars "<string>"⟩

/-- An always-accepting syntax check. It agrees with the host CPython
parser on every fragment submitted in the concrete scenarios that use it,
each being a valid Python fragment. -/
def pyAccept : List Char → Option (List Char × Nat) := fun _ => none

/-- The default web2py-delimiter profile with the accepting check. -/
def pyWeb2py : Profile := web2pyProfile pyAccept

/-- The Web2pyStencil profile: the default handler table extended, after
the default entry, with the extend handler, in insertion order. -/
def Web2pyStencil : Profile := { pyWeb2py with subs := [equalSub, extendSub] }

/-- A syntax check rejecting exactly the fragment 1+, as the host CPython
parser does (an incomplete expression), accepting everything else. -/
def pyRejectOnePlus : List Char → Option (List Char × Nat) :=
  fun t => if t = chars "1+" then some (chars "invalid syntax", 3) else none

/-- The default web2py-delimiter profile with the check that rejects 1+. -/
def pyRejecting : Profile := web2pyProfile pyRejectOnePlus

/-- The nesting-level effect of one directive interior, read off
process_substitution: handlers leave the level alone; a dedent or
continuation decrements (stopping on underflow); a trailing colon on the
pass-through path increments. -/
def levelStep (p : Profile) (lvl : Int) (t0 : List Char) : Int :=
  let t := strip t0
  if t = [] then lvl
  else
    match findSub p.subs t with
    | some _ => lvl
    | none =>
        if p.dedent t || startsCont t then
          let l1 := lvl - 1
          if l1 < 0 then l1 else if t.getLastD ' ' = ':' then l1 + 1 else l1
        else if t.getLastD ' ' = ':' then lvl + 1 else lvl

/-- The directive spans completed inside one accumulated physical line,
with the final mode and the leftover buffer: the scanner of the inner loop
with the emission and state bookkeeping erased, under the same fuel. -/
def spanScanF (p : Profile) : Nat → List Char → Bool →
    List (List Char) × Bool × List Char
  | 0, _, insub => ([], insub, [])
  | fuel + 1, line, insub =>
      if line = [] then ([], insub, [])
      else
        match splitAtSub line (if insub then p.closer else p.opener) with
        | none => ([], insub, line)
        | some (text, rest) =>
            let r := spanScanF p fuel rest (!insub)
            ((if insub then text :: r.1 else r.1), r.2.1, r.2.2)

/-- The span scanner with sufficient fuel. -/
def spanScan (p : Profile) (line : List Char) (insub : Bool) :
    List (List Char) × Bool × List Char :=
  spanScanF p (line.length + 1) line insub

/-- The directive spans of a whole line sequence, threading mode and
buffer across lines exactly as compileLoop does. -/
def scanLines (p : Profile) : List (List Char) → List Char → Bool →
    List (List Char) × Bool × List Char
  | [], m, insub => ([], insub, m)
  | l :: ls, m, insub =>
      let r := spanScan p (m ++ l) insub
      let r2 := scanLines p ls r.2.2 r.2.1
      (r.1 ++ r2.1, r2.2.1, r2.2.2)

/-- The stream of directive spans of a whole input. -/
def directiveSpans (p : Profile) (s : List Char) : List (List Char) :=
  (scanLines p (splitLinesKeepEnds s) [] false).1

/-
Helper lemmas about the dispatcher.
-/

/-- The validator step never changes the state, only the error. -/
theorem blockCheck_fst (p : Profile) (st : CState) (t : List Char) :
    (blockCheck p st t).1 = st := by
  unfold blockCheck
  split
  · rfl
  · split <;> rfl

/-- The pass-through tail changes the level by exactly the trailing-colon
increment. -/
theorem dedentTail_level (p : Profile) (st : CState) (t : List Char) :
    (dedentTail p st t).1.level =
      if t.getLastD ' ' = ':' then st.level + 1 else st.level := by
  unfold dedentTail
  rw [blockCheck_fst]
  split <;> split <;> simp [printStmt]

/-- The pass-through tail never touches the multi-line buffer. -/
theorem dedentTail_multiline (p : Profile) (st : CState) (t : List Char) :
    (dedentTail p st t).1.multiline = st.multiline := by
  unfold dedentTail
  rw [blockCheck_fst]
  split <;> split <;> simp [printStmt]

/-- On the pass-through tail of a non-dedent directive, the statement is
appended to the output at the entry level, whatever the validator says. -/
theorem dedentTail_output (p : Profile) (st : CState) (t : List Char)
    (hd : p.dedent t = false) :
    (dedentTail p st t).1.output = st.output ++ [⟨st.level, t⟩] := by
  unfold dedentTail
  rw [blockCheck_fst]
  rw [hd]
  split <;> simp [printStmt]

/-- The level after one substitution is the pure levelStep function of the
entry level and the directive text alone. -/
theorem ps_level (p : Profile) (st : CState) (t0 : List Char) :
    (process_substitution p st t0).1.level = levelStep p st.level t0 := by
  unfold process_substitution levelStep
  dsimp only
  by_cases h0 : strip t0 = []
  · simp [h0]
  · rw [if_neg h0, if_neg h0]
    cases hf : findSub p.subs (strip t0) with
    | some se =>
        simp only [hf]
        rw [blockCheck_fst]
        rfl
    | none =>
        simp only [hf]
        split
        · split
          · rfl
          · rw [dedentTail_level]
        · rw [dedentTail_level]

/-- A substitution never touches the multi-line buffer. -/
theorem ps_multiline (p : Profile) (st : CState) (t0 : List Char) :
    (process_substitution p st t0).1.multiline = st.multiline := by
  unfold process_substitution
  dsimp only
  by_cases h0 : strip t0 = []
  · simp [h0]
  · rw [if_neg h0]
    cases hf : findSub p.subs (strip t0) with
    | some se =>
        simp only [hf]
        rw [blockCheck_fst]
        rfl
    | none =>
        simp only [hf]
        split
        · split
          · rfl
          · rw [dedentTail_multiline]
        · rw [dedentTail_multiline]

/-
The correspondence between the stateful scan and the span scanner: for a
run without error, the final level is the fold of levelStep over the
directive spans, the final mode is the scanner's, and the buffer is the
scanner's leftover.
-/

theorem innerLoopF_scan (p : Profile) :
    ∀ (fuel : Nat) (st : CState) (line : List Char) (insub : Bool)
      (st' : CState) (insub2 : Bool),
      innerLoopF p fuel st line insub = (st', insub2, none) →
      st'.level = (spanScanF p fuel line insub).1.foldl (levelStep p) st.level ∧
      insub2 = (spanScanF p fuel line insub).2.1 ∧
      st'.multiline = st.multiline ++ (spanScanF p fuel line insub).2.2 := by
  intro fuel
  induction fuel with
  | zero =>
      intro st line insub st' insub2 h
      rw [innerLoopF] at h
      injection h with h1 h2
      injection h2 with h2 h3
      subst h1
      subst h2
      simp [spanScanF]
  | succ fuel ih =>
      intro st line insub st' insub2 h
      rw [innerLoopF] at h
      rw [spanScanF]
      by_cases hl : line = []
      · rw [if_pos hl] at h
        rw [if_pos hl]
        injection h with h1 h2
        injection h2 with h2 h3
        subst h1
        subst h2
        simp
      · rw [if_neg hl] at h
        rw [if_neg hl]
        cases hsp : splitAtSub line (if insub then p.closer else p.opener) with
        | none =>
            rw [hsp] at h
            simp only at h
            injection h with h1 h2
            injection h2 with h2 h3
            subst h1
            subst h2
            simp [hsp]
        | some pr =>
            rcases pr with ⟨text, rest⟩
            rw [hsp] at h
            simp only [hsp]
            cases insub with
            | true =>
                simp only [if_true] at h ⊢
                rcases hps : process_substitution p st text with ⟨st1, e?⟩
                rw [hps] at h
                cases e? with
                | some e =>
                    simp only at h
                    injection h with h1 h2
                    injection h2 with h2 h3
                    cases h3
                | none =>
                    simp only at h
                    obtain ⟨g1, g2, g3⟩ := ih _ _ _ _ _ h
                    refine ⟨?_, ?_, ?_⟩
                    · rw [g1]
                      have hlv : st1.level = levelStep p st.level text := by
                        have := ps_level p st text
                        rw [hps] at this
                        exact this
                      simp [List.foldl_cons, hlv]
                    · exact g2
                    · rw [g3]
                      have hml : st1.multiline = st.multiline := by
                        have := ps_multiline p st text
                        rw [hps] at this
                        exact this
                      simp [hml]
            | false =>
                simp only [Bool.false_eq_true, if_false] at h ⊢
                by_cases ht : text = []
                · rw [if_pos ht] at h
                  simp only at h
                  obtain ⟨g1, g2, g3⟩ := ih _ _ _ _ _ h
                  exact ⟨g1, g2, g3⟩
                · rw [if_neg ht] at h
                  simp only at h
                  obtain ⟨g1, g2, g3⟩ := ih _ _ _ _ _ h
                  refine ⟨?_, g2, ?_⟩
                  · rw [g1]
                    rfl
                  · rw [g3]
                    rfl

/-- The inner loop with its standard fuel against the span scanner. -/
theorem innerLoop_scan (p : Profile) (st : CState) (line : List Char) (insub : Bool)
    (st' : CState) (insub2 : Bool)
    (h : innerLoop p st line insub = (st', insub2, none)) :
    st'.level = (spanScan p line insub).1.foldl (levelStep p) st.level ∧
    insub2 = (spanScan p line insub).2.1 ∧
    st'.multiline = st.multiline ++ (spanScan p line insub).2.2 :=
  innerLoopF_scan p (line.length + 1) st line insub st' insub2 h

theorem compileLoop_scan (p : Profile) :
    ∀ (ls : List (List Char)) (st : CState) (insub : Bool) (n : Nat)
      (st' : CState) (insub2 : Bool),
      compileLoop p st insub n ls = (st', insub2, none) →
      st'.level = (scanLines p ls st.multiline insub).1.foldl (levelStep p) st.level ∧
      insub2 = (scanLines p ls st.multiline insub).2.1 ∧
      st'.multiline = (scanLines p ls st.multiline insub).2.2 := by
  intro ls
  induction ls with
  | nil =>
      intro st insub n st' insub2 h
      rw [compileLoop] at h
      injection h with h1 h2
      injection h2 with h2 h3
      subst h1
      subst h2
      simp [scanLines]
  | cons l ls ih =>
      intro st insub n st' insub2 h
      rw [compileLoop] at h
      rcases hr : innerLoop p (lineSetup st n l).1 (lineSetup st n l).2 insub
        with ⟨stB, insubB, e?⟩
      rw [hr] at h
      cases e? with
      | some e =>
          simp only at h
          injection h with h1 h2
          injection h2 with h2 h3
          cases h3
      | none =>
          simp only at h
          obtain ⟨g1, g2, g3⟩ := innerLoop_scan p _ _ _ _ _ hr
          obtain ⟨k1, k2, k3⟩ := ih stB insubB (n + 1) st' insub2 h
          simp only [lineSetup] at g1 g2 g3
          rw [scanLines]
          refine ⟨?_, ?_, ?_⟩
          · rw [k1, g3, g2, g1]
            simp [List.foldl_append]
          · rw [k2, g3, g2]
            simp
          · rw [k3, g3, g2]
            simp

/-- The epilogue never changes the level. -/
theorem compileFinish_level (p : Profile) (st : CState) (insub : Bool) :
    (compileFinish p st insub).1.level = st.level := by
  unfold compileFinish
  split
  · rfl
  · split
    · rfl
    · simp [printStmt]

/-
No-delimiter texts: occurrence transfer along appends, reassembly of the
line split, and the resulting single final emission.
-/

theorem firstOcc_isSome_append (x y sep : List Char)
    (h : (firstOcc x sep).isSome) : (firstOcc (x ++ y) sep).isSome := by
  induction x with
  | nil =>
      rcases sep with _ | ⟨d, ds⟩ <;> simp [firstOcc] at h
  | cons c cs ih =>
      rcases sep with _ | ⟨d, ds⟩
      · simp [firstOcc] at h
      · rw [List.cons_append, firstOcc]
        by_cases hp : (d :: ds).isPrefixOf (c :: (cs ++ y))
        · rw [if_pos hp]
          rfl
        · rw [if_neg hp]
          have hp0 : ¬(d :: ds).isPrefixOf (c :: cs) := by
            intro hh
            apply hp
            have h1 := List.isPrefixOf_iff_prefix.mp hh
            have h2 : (c :: cs) <+: (c :: cs) ++ y := List.prefix_append _ _
            exact List.isPrefixOf_iff_prefix.mpr (h1.trans h2)
          rw [firstOcc, if_neg hp0] at h
          rcases hfo : firstOcc cs (d :: ds) with _ | j
          · rw [hfo] at h
            simp at h
          · have hs2 : (firstOcc cs (d :: ds)).isSome := by
              rw [hfo]
              rfl
            have hs3 := ih hs2
            rcases Option.isSome_iff_exists.mp hs3 with ⟨k, hk⟩
            rw [hk]
            rfl

theorem splitAtSub_none_of_append (x y sep : List Char)
    (h : splitAtSub (x ++ y) sep = none) : splitAtSub x sep = none := by
  unfold splitAtSub at h ⊢
  cases hx : firstOcc x sep with
  | none => rfl
  | some i =>
      have h1 : (firstOcc x sep).isSome := by
        rw [hx]
        rfl
      have h2 := firstOcc_isSome_append x y sep h1
      rcases ho : firstOcc (x ++ y) sep with _ | j
      · rw [ho] at h2
        cases h2
      · rw [ho] at h
        simp at h

theorem splitLines_flatten : ∀ s : List Char, (splitLinesKeepEnds s).flatten = s := by
  intro s
  induction s with
  | nil => rfl
  | cons c cs ih =>
      rw [splitLinesKeepEnds]
      by_cases hc : c = '\n'
      · rw [if_pos hc]
        subst hc
        simp [ih]
      · rw [if_neg hc]
        cases hL : splitLinesKeepEnds cs with
        | nil =>
            have hcs : cs = [] := by
              rw [← ih, hL]
              rfl
            subst hcs
            simp
        | cons l ls =>
            rw [hL] at ih
            simp only [List.flatten_cons] at ih ⊢
            rw [List.cons_append, ih]

theorem innerLoop_no_delim (p : Profile) (st : CState) (line : List Char) (insub : Bool)
    (h : splitAtSub line (if insub then p.closer else p.opener) = none) :
    innerLoop p st line insub =
      ({ st with multiline := st.multiline ++ line }, insub, none) := by
  unfold innerLoop
  rw [innerLoopF]
  by_cases hl : line = []
  · rw [if_pos hl]
    subst hl
    simp
  · rw [if_neg hl, h]

theorem compileLoop_no_delim (p : Profile) :
    ∀ (ls : List (List Char)) (st : CState) (n : Nat),
      splitAtSub (st.multiline ++ ls.flatten) p.opener = none →
      ∃ st', compileLoop p st false n ls = (st', false, none) ∧
        st'.multiline = st.multiline ++ ls.flatten ∧
        st'.output = st.output ∧ st'.level = st.level := by
  intro ls
  induction ls with
  | nil =>
      intro st n h
      refine ⟨st, by rw [compileLoop], by simp, rfl, rfl⟩
  | cons l ls ih =>
      intro st n h
      have h' : splitAtSub ((st.multiline ++ l) ++ ls.flatten) p.opener = none := by
        rw [List.append_assoc]
        simpa [List.flatten_cons] using h
      have hpre : splitAtSub (st.multiline ++ l) p.opener = none :=
        splitAtSub_none_of_append (st.multiline ++ l) ls.flatten p.opener h'
      have hstep : compileLoop p st false n (l :: ls) =
          compileLoop p ⟨0, n, st.level, st.multiline ++ l, l, st.output⟩ false (n + 1) ls := by
        rw [compileLoop]
        simp only [lineSetup]
        rw [innerLoop_no_delim p _ (st.multiline ++ l) false hpre]
        rfl
      rw [hstep]
      obtain ⟨st', hc, hm, ho, hlv⟩ :=
        ih ⟨0, n, st.level, st.multiline ++ l, l, st.output⟩ (n + 1) h'
      refine ⟨st', hc, ?_, ho, hlv⟩
      rw [hm]
      simp [List.flatten_cons, List.append_assoc]

/-
The structural-underflow raise and the default handler table.
-/

/-- At level zero, a directive reaching the dedent bookkeeping with the
dedent predicate true or a continuation keyword fails with the
dedent-outside-of-block SyntaxError at the unadvanced column. -/
theorem ps_underflow (p : Profile) (st : CState) (t0 : List Char)
    (h0 : st.level = 0)
    (hne : strip t0 ≠ [])
    (hfind : findSub p.subs (strip t0) = none)
    (hded : (p.dedent (strip t0) || startsCont (strip t0)) = true) :
    process_substitution p st t0 =
      ({ st with level := -1 },
       some (CErr.synError (chars "Got dedent outside of block")
         ⟨p.filename, st.linenumber, st.column, st.currentline⟩)) := by
  unfold process_substitution
  simp only [if_neg hne, hfind, hded, if_true, h0, errState]
  norm_num

/-- With the single default handler, a dedent token or continuation
keyword matches no pattern: it cannot start with the equal sign. -/
theorem findSub_default_none (t : List Char)
    (h : ((t == chars "pass") || startsCont t) = true) : findSub [equalSub] t = none := by
  have hhead : ∃ c rest, t = c :: rest ∧ c ≠ '=' := by
    rcases Bool.or_eq_true_iff.mp h with h1 | h2
    · refine ⟨'p', chars "ass", ?_, by decide⟩
      have ht := eq_of_beq h1
      rw [ht]
      rfl
    · unfold startsCont at h2
      rcases Bool.or_eq_true_iff.mp h2 with h3 | h8
      · rcases Bool.or_eq_true_iff.mp h3 with h4 | h7
        · rcases Bool.or_eq_true_iff.mp h4 with h5 | h6
          · rcases (List.isPrefixOf_iff_prefix.mp h5) with ⟨u, hu⟩
            refine ⟨'e', chars "lif" ++ u, ?_, by decide⟩
            rw [← hu]
            rfl
          · rcases (List.isPrefixOf_iff_prefix.mp h6) with ⟨u, hu⟩
            refine ⟨'e', chars "lse" ++ u, ?_, by decide⟩
            rw [← hu]
            rfl
        · rcases (List.isPrefixOf_iff_prefix.mp h7) with ⟨u, hu⟩
          refine ⟨'e', chars "xcept" ++ u, ?_, by decide⟩
          rw [← hu]
          rfl
      · rcases (List.isPrefixOf_iff_prefix.mp h8) with ⟨u, hu⟩
        refine ⟨'f', chars "inally" ++ u, ?_, by decide⟩
        rw [← hu]
        rfl
  rcases hhead with ⟨c, rest, ht, hc⟩
  rw [ht]
  simp [findSub, equalSub, matchEqualSign, hc]

/-
The claims.
-/

/-- C1, counterexample: on the directive equal-sign 1+ with the host parser
(modelled) rejecting the fragment 1+, compilation aborts with the
validator Diagnostic, yet the rejected statement write(str(1+)) has already
been emitted and stands in the streamed output sequence, contradicting the
claim that a statement is validated before emission and that a rejected
statement never appears in the emitted output. -/
theorem C1_cex :
    (compileRun pyRejecting (chars "\x7b\x7b=1+\x7d\x7d")).2 =
      some (CErr.synError (chars "invalid syntax")
        ⟨chars "<string>", 1, 6, chars "\x7b\x7b=1+\x7d\x7d"⟩) ∧
    (⟨0, chars "sys.stdout.write(str(1+))"⟩ : Emitted) ∈
      (compileRun pyRejecting (chars "\x7b\x7b=1+\x7d\x7d")).1.output := by
  decide

/-- C1, amended: on the handler path the rewritten statement is emitted to
the output first, and only then is the handler remainder (not the final
statement text) submitted to the Fragment Validator; a validator rejection
aborts compilation with a SyntaxError whose offset is added to the column,
but the already-emitted statement remains in the output. -/
theorem C1_amended (p : Profile) (st : CState) (t0 : List Char)
    (sub : SubHandler) (e : Nat) (msg : List Char) (off : Nat)
    (hne : strip t0 ≠ [])
    (hfind : findSub p.subs (strip t0) = some (sub, e))
    (hrem : (strip t0).drop e ≠ [])
    (hchk : p.checkSyntax (buildBlockCheck ((strip t0).drop e)) = some (msg, off)) :
    (process_substitution p st t0).1.output =
      st.output ++ [⟨st.level, sub.func ((strip t0).take e) ((strip t0).drop e)⟩] ∧
    (process_substitution p st t0).2 =
      some (CErr.synError msg
        ⟨p.filename, st.linenumber, st.column + e + off, st.currentline⟩) := by
  unfold process_substitution
  simp only [if_neg hne, hfind]
  unfold blockCheck
  rcases hlast : ((strip t0).drop e).getLast? with _ | c
  · rw [List.getLast?_eq_none_iff] at hlast
    exact absurd hlast hrem
  · simp only [hlast, hchk]
    constructor <;> simp [printStmt, errState]

/-- C1, witness for the amended statement at the concrete rejected
directive. -/
theorem C1_amended_witness :
    (process_substitution pyRejecting initState (chars "=1+")).1.output =
      initState.output ++ [⟨initState.level,
        equalSub.func ((strip (chars "=1+")).take 1) ((strip (chars "=1+")).drop 1)⟩] ∧
    (process_substitution pyRejecting initState (chars "=1+")).2 =
      some (CErr.synError (chars "invalid syntax")
        ⟨pyRejecting.filename, initState.linenumber,
         initState.column + 1 + 3, initState.currentline⟩) :=
  C1_amended pyRejecting initState (chars "=1+") equalSub 1 (chars "invalid syntax") 3
    (by decide) rfl (by decide) (by decide)

/-- C2, counterexample: the extend-handled directive rewrites to a
statement ending in a colon (with a remainder also ending in a colon), yet
the nesting level stays zero after its emission and the following literal
is still emitted at level zero, contradicting the claim that the trailing
block-opening marker increments the level on the handler path too. -/
theorem C2_cex :
    (compileRun Web2pyStencil (chars "\x7b\x7bextend if x:\x7d\x7dA")).2 = none ∧
    (compileRun Web2pyStencil (chars "\x7b\x7bextend if x:\x7d\x7dA")).1.level = 0 ∧
    (compileRun Web2pyStencil (chars "\x7b\x7bextend if x:\x7d\x7dA")).1.output =
      [⟨0, chars "#Extending if x:"⟩,
       ⟨0, chars "sys.stdout.write(" ++ [squo, 'A', squo, ')']⟩] := by
  decide

/-- C2, amended: only on the pass-through path does a trailing colon
increment the nesting level, after the statement is emitted at the old
level; on the handler path the nesting level is never changed. -/
theorem C2_amended :
    (∀ (p : Profile) (st : CState) (t0 : List Char),
      strip t0 ≠ [] →
      findSub p.subs (strip t0) = none →
      (p.dedent (strip t0) || startsCont (strip t0)) = false →
      (strip t0).getLastD ' ' = ':' →
      (process_substitution p st t0).1.level = st.level + 1 ∧
      (process_substitution p st t0).1.output = st.output ++ [⟨st.level, strip t0⟩]) ∧
    (∀ (p : Profile) (st : CState) (t0 : List Char) (sub : SubHandler) (e : Nat),
      findSub p.subs (strip t0) = some (sub, e) →
      (process_substitution p st t0).1.level = st.level) := by
  constructor
  · intro p st t0 hne hfind hdec hcol
    unfold process_substitution
    simp only [if_neg hne, hfind, hdec, Bool.false_eq_true, if_false]
    constructor
    · rw [dedentTail_level, if_pos hcol]
    · have hd : p.dedent (strip t0) = false := by
        rcases Bool.or_eq_false_iff.mp hdec with ⟨ha, hb⟩
        exact ha
      rw [dedentTail_output p st (strip t0) hd]
  · intro p st t0 sub e hfind
    rw [ps_level]
    unfold levelStep
    by_cases h0 : strip t0 = []
    · simp [h0]
    · simp only [if_neg h0, hfind]

/-- C2, witness for the amended statement at a concrete colon-terminated
pass-through directive. -/
theorem C2_amended_witness :
    (process_substitution pyWeb2py initState (chars "while x:")).1.level =
      initState.level + 1 ∧
    (process_substitution pyWeb2py initState (chars "while x:")).1.output =
      initState.output ++ [⟨initState.level, strip (chars "while x:")⟩] :=
  C2_amended.1 pyWeb2py initState (chars "while x:") (by decide) rfl (by decide) (by decide)

/-- C3, counterexample: the literal-only template xyz reaches end of input
with a non-empty multi-line buffer in literal mode, and compilation
succeeds with the final literal emission instead of being an error, as the
claim would demand. -/
theorem C3_cex :
    (compileRun pyWeb2py (chars "xyz")).2 = none ∧
    (compileRun pyWeb2py (chars "xyz")).1.output =
      [⟨0, chars "sys.stdout.write(" ++ [squo, 'x', 'y', 'z', squo, ')']⟩] := by
  decide

/-- C3, amended: when the line loop ends without error, end of input is an
error exactly when the leftover buffer is non-empty and the mode is
directive; a non-empty buffer in literal mode is emitted as the final
literal statement, and an empty buffer is never an error. -/
theorem C3_amended (p : Profile) (s : List Char) (st : CState) (insub : Bool)
    (h : compileLoop p initState false 1 (splitLinesKeepEnds s) = (st, insub, none)) :
    (compileRun p s).2 ≠ none ↔ (st.multiline ≠ [] ∧ insub = true) := by
  unfold compileRun
  rw [h]
  dsimp only
  unfold compileFinish
  by_cases hm : st.multiline = []
  · rw [if_pos hm]
    simp [hm]
  · rw [if_neg hm]
    cases insub with
    | true => simp [hm]
    | false => simp [hm]

/-- C3, witness for the amended statement on the literal-only template. -/
theorem C3_amended_witness :
    (compileRun pyWeb2py (chars "xyz")).2 ≠ none ↔
      ((⟨0, 1, 0, chars "xyz", chars "xyz", []⟩ : CState).multiline ≠ [] ∧ false = true) :=
  C3_amended pyWeb2py (chars "xyz") ⟨0, 1, 0, chars "xyz", chars "xyz", []⟩ false (by decide)

/-- C4: the template 123-open-if true:-close-456-open-pass-close compiles
without error to exactly three statements in order, the literal write of
123 at level zero, the pass-through statement if true: at level zero with
the level becoming one afterwards, and the literal write of 456 at level
one; the pass directive emits nothing and the final level is zero. -/
theorem C4_scenarioB :
    (compileRun pyWeb2py (chars "123\x7b\x7bif true:\x7d\x7d456\x7b\x7bpass\x7d\x7d")).2 = none ∧
    (compileRun pyWeb2py (chars "123\x7b\x7bif true:\x7d\x7d456\x7b\x7bpass\x7d\x7d")).1.output =
      [⟨0, chars "sys.stdout.write(" ++ [squo] ++ chars "123" ++ [squo, ')']⟩,
       ⟨0, chars "if true:"⟩,
       ⟨1, chars "sys.stdout.write(" ++ [squo] ++ chars "456" ++ [squo, ')']⟩] ∧
    (compileRun pyWeb2py (chars "123\x7b\x7bif true:\x7d\x7d456\x7b\x7bpass\x7d\x7d")).1.level = 0 := by
  decide

/-- C5: with the default profile, in any state at nesting level zero a
directive whose stripped text satisfies the dedent predicate or begins with
a continuation keyword fails with the dedent-outside-of-block SyntaxError
at the column of the offending directive; in particular the lone template
open-pass-close fails exactly this way. -/
theorem C5_underflow :
    (∀ (check : List Char → Option (List Char × Nat)) (st : CState) (t0 : List Char),
      st.level = 0 →
      ((web2pyProfile check).dedent (strip t0) || startsCont (strip t0)) = true →
      process_substitution (web2pyProfile check) st t0 =
        ({ st with level := -1 },
         some (CErr.synError (chars "Got dedent outside of block")
           ⟨chars "<string>", st.linenumber, st.column, st.currentline⟩))) ∧
    compileRun pyWeb2py (chars "\x7b\x7bpass\x7d\x7d") =
      (⟨2, 1, -1, [], chars "\x7b\x7bpass\x7d\x7d", []⟩,
       some (CErr.synError (chars "Got dedent outside of block")
         ⟨chars "<string>", 1, 2, chars "\x7b\x7bpass\x7d\x7d"⟩)) := by
  constructor
  · intro check st t0 h0 hded
    have hded' : ((strip t0 == chars "pass") || startsCont (strip t0)) = true := hded
    have hfind0 : findSub [equalSub] (strip t0) = none := findSub_default_none _ hded'
    have hne : strip t0 ≠ [] := by
      intro hnil
      rw [hnil] at hded'
      exact absurd hded' (by decide)
    exact ps_underflow (web2pyProfile check) st t0 h0 hne hfind0 hded
  · decide

/-- C5, witness instantiating the universal part at the lone dedent
directive in a level-zero state. -/
theorem C5_underflow_witness :
    process_substitution (web2pyProfile pyAccept) initState (chars "pass") =
      ({ initState with level := -1 },
       some (CErr.synError (chars "Got dedent outside of block")
         ⟨chars "<string>", initState.linenumber, initState.column, initState.currentline⟩)) :=
  C5_underflow.1 pyAccept initState (chars "pass") rfl (by decide)

/-- C6, counterexample: the input ab-open ends exactly at the opener, so
the scanner is in directive mode at end of input with an empty buffer, and
compilation succeeds with the truncated literal output instead of raising
the unclosed-substitution error the claim demands for every input ending
inside a directive span. -/
theorem C6_cex :
    (compileLoop pyWeb2py initState false 1
      (splitLinesKeepEnds (chars "ab\x7b\x7b"))).2.1 = true ∧
    (compileRun pyWeb2py (chars "ab\x7b\x7b")).2 = none ∧
    (compileRun pyWeb2py (chars "ab\x7b\x7b")).1.output =
      [⟨0, chars "sys.stdout.write(" ++ [squo, 'a', 'b', squo, ')']⟩] := by
  decide

/-- C6, amended: when the line loop ends without error in directive mode
and the leftover buffer is non-empty, compilation raises the
unclosed-substitution SyntaxError attributed to the final position, the
end-of-input line and column. -/
theorem C6_amended (p : Profile) (s : List Char) (st : CState) (insub : Bool)
    (h : compileLoop p initState false 1 (splitLinesKeepEnds s) = (st, insub, none))
    (hin : insub = true) (hml : st.multiline ≠ []) :
    compileRun p s =
      (st, some (CErr.synError (chars "Unclosed substitution")
        ⟨p.filename, st.linenumber, st.column, st.currentline⟩)) := by
  unfold compileRun
  rw [h]
  dsimp only
  unfold compileFinish
  rw [if_neg hml, hin]
  simp [errState]

/-- C6, witness for the amended statement on a directive left unclosed
with a non-empty buffer. -/
theorem C6_amended_witness :
    compileRun pyWeb2py (chars "a\x7b\x7bb") =
      (⟨3, 1, 0, chars "b", chars "a\x7b\x7bb",
        [⟨0, chars "sys.stdout.write(" ++ [squo, 'a', squo, ')']⟩]⟩,
       some (CErr.synError (chars "Unclosed substitution")
         ⟨pyWeb2py.filename, 1, 3, chars "a\x7b\x7bb"⟩)) :=
  C6_amended pyWeb2py (chars "a\x7b\x7bb")
    ⟨3, 1, 0, chars "b", chars "a\x7b\x7bb",
     [⟨0, chars "sys.stdout.write(" ++ [squo, 'a', squo, ')']⟩]⟩ true (by decide) rfl (by decide)

/-- C7, counterexample: the empty template holds no delimiter occurrence
and compiles without error, but its output holds no statement at all
rather than the exactly one emission statement the claim asserts. -/
theorem C7_cex :
    (compileRun pyWeb2py []).2 = none ∧
    (compileRun pyWeb2py []).1.output.length ≠ 1 := by
  decide

/-- C7, amended: every non-empty template without any occurrence of the
opener or of the closer compiles without error to exactly one emission
statement wrapping the whole text verbatim at nesting level zero. -/
theorem C7_amended (p : Profile) (s : List Char)
    (hne : s ≠ [])
    (hop : splitAtSub s p.opener = none)
    (hcl : splitAtSub s p.closer = none) :
    (compileRun p s).2 = none ∧
    (compileRun p s).1.output = [⟨0, writerCall p s⟩] := by
  have hyp : splitAtSub (initState.multiline ++ (splitLinesKeepEnds s).flatten) p.opener
      = none := by
    rw [splitLines_flatten]
    simpa [initState] using hop
  obtain ⟨st', hc, hm, ho, hlv⟩ :=
    compileLoop_no_delim p (splitLinesKeepEnds s) initState 1 hyp
  have hm' : st'.multiline = s := by
    rw [hm]
    simp [initState, splitLines_flatten]
  unfold compileRun
  rw [hc]
  dsimp only
  unfold compileFinish
  rw [if_neg (by rw [hm']; exact hne)]
  constructor
  · rfl
  · simp [printStmt, ho, hlv, hm', initState]

/-- C7, witness for the amended statement on a two-line literal-only
template. -/
theorem C7_amended_witness :
    (compileRun pyWeb2py (chars "he\nllo")).2 = none ∧
    (compileRun pyWeb2py (chars "he\nllo")).1.output =
      [⟨0, writerCall pyWeb2py (chars "he\nllo")⟩] :=
  C7_amended pyWeb2py (chars "he\nllo") (by decide) (by decide) (by decide)

/-- C8: the nesting level of an error-free compilation is the fold of the
pure per-directive levelStep function over the stream of directive spans
alone, and the literal emission of Compiler.print never changes the
level. -/
theorem C8_level_pure :
    (∀ (p : Profile) (s : List Char) (st : CState),
      compileRun p s = (st, none) →
      st.level = (directiveSpans p s).foldl (levelStep p) 0) ∧
    (∀ (st : CState) (t : List Char), (printStmt st t).level = st.level) := by
  constructor
  · intro p s st h
    unfold compileRun at h
    rcases hc : compileLoop p initState false 1 (splitLinesKeepEnds s) with ⟨stA, insubA, e?⟩
    rw [hc] at h
    cases e? with
    | some e =>
        dsimp only at h
        injection h with h1 h2
        cases h2
    | none =>
        dsimp only at h
        obtain ⟨g1, g2, g3⟩ :=
          compileLoop_scan p (splitLinesKeepEnds s) initState false 1 stA insubA hc
        have hst : st.level = stA.level := by
          have hf := compileFinish_level p stA insubA
          rw [h] at hf
          exact hf
        rw [hst, g1]
        rfl
  · intro st t
    rfl

/-- C8, witness: the error-free run on a one-block template has final
level equal to the fold over its single directive span. -/
theorem C8_witness :
    (⟨10, 1, 1, chars "B", chars "A\x7b\x7bif x:\x7d\x7dB",
      [⟨0, chars "sys.stdout.write(" ++ [squo, 'A', squo, ')']⟩,
       ⟨0, chars "if x:"⟩,
       ⟨1, chars "sys.stdout.write(" ++ [squo, 'B', squo, ')']⟩]⟩ : CState).level =
      (directiveSpans pyWeb2py (chars "A\x7b\x7bif x:\x7d\x7dB")).foldl (levelStep pyWeb2py) 0 :=
  C8_level_pure.1 pyWeb2py (chars "A\x7b\x7bif x:\x7d\x7dB") _ (by decide)

/-- C9: compilation is deterministic; two independent compilations of the
same template with the same profile produce the same output sequence and
the same diagnostic. -/
theorem C9_deterministic (p : Profile) (s : List Char)
    (r1 r2 : CState × Option CErr)
    (h1 : r1 = compileRun p s) (h2 : r2 = compileRun p s) :
    r1.1.output = r2.1.output ∧ r1.2 = r2.2 := by
  subst h1
  subst h2
  exact ⟨rfl, rfl⟩

/-- C9, witness at a concrete compilation. -/
theorem C9_witness :
    (compileRun pyWeb2py (chars "ok")).1.output =
      (compileRun pyWeb2py (chars "ok")).1.output ∧
    (compileRun pyWeb2py (chars "ok")).2 = (compileRun pyWeb2py (chars "ok")).2 :=
  C9_deterministic pyWeb2py (chars "ok") _ _ rfl rfl

/-- C10: the directive holding a lone equal sign is consumed entirely by
the default handler, the rewritten statement write(str()) is emitted, and
the trailing index into the empty block-check text raises the unhandled
IndexError, an outcome outside the three SyntaxError diagnostics. -/
theorem C10_indexError :
    compileRun pyWeb2py (chars "\x7b\x7b=\x7d\x7d") =
      (⟨3, 1, 0, [], chars "\x7b\x7b=\x7d\x7d",
        [⟨0, chars "sys.stdout.write(str())"⟩]⟩,
       some CErr.indexError) := by
  decide
